import Mathlib

/-!
Verification development for generate_list.py: a linear pipeline that
scrapes a popular-TV listing page, extracts (title, imdb id) records,
resolves each imdb id to a TVDB id via a lookup API, drops unresolved
records, and serializes the result as indented JSON.

The HTML parsing and CSS selection done by BeautifulSoup are modelled by
taking the selector results as the input: a Markup value holds the list
of anchors matched by the primary selector and the list of lister items
matched by the legacy selector, in document order, each carrying the
attribute and text values the script reads from them.  Network calls are
modelled by their outcomes (an exception, or a response with a status
and a parsed body).  Everything after those boundaries is translated
from the source line by line.
-/

/-- A record produced by the extractor: `{"title": ..., "imdbId": ...}`. -/
structure RawRecord where
  title : String
  imdbId : String
deriving Repr, DecidableEq

/-- A final payload entry: `{"title": ..., "tvdbId": ...}`. -/
structure FinalEntry where
  title : String
  tvdbId : Int
deriving Repr, DecidableEq

/-- The regex class matched by Python `\d` (ASCII range used here). -/
def pyDigit (c : Char) : Bool := c.isDigit

/-- The regex class matched by Python `\s` (ASCII range used here). -/
def pySpace (c : Char) : Bool :=
  c = ' ' || c = '\t' || c = '\n' || c = '\x0b' || c = '\x0c' || c = '\r'

/-- Model of `re.search(r"tt(\d+)", href)`: scan left to right for the
first position starting with "tt" followed by at least one digit, and
return the maximal digit run there (the capture group). -/
def ttSearch : List Char → Option (List Char)
  | [] => none
  | c :: rest =>
    match c, rest with
    | 't', 't' :: rest2 =>
      let ds := rest2.takeWhile pyDigit
      if ds.isEmpty then ttSearch rest else some ds
    | _, _ => ttSearch rest

/-- One attempt of `re.search(r"/title/(tt\d+)/", href)` anchored at the
current position: "/title/tt", then at least one digit, then "/". -/
def legacyMatchAt (l : List Char) : Option String :=
  if ("/title/tt".data).isPrefixOf l then
    let after := l.drop 9
    let ds := after.takeWhile pyDigit
    if ds.isEmpty then none
    else
      match after.drop ds.length with
      | '/' :: _ => some ("tt" ++ String.mk ds)
      | _ => none
  else none

/-- Model of `re.search(r"/title/(tt\d+)/", href)`: leftmost match,
returning the capture group "tt" + digits. -/
def legacySearch : List Char → Option String
  | [] => none
  | c :: rest =>
    match legacyMatchAt (c :: rest) with
    | some r => some r
    | none => legacySearch rest

/-- Model of `re.sub(r"^\d+\.\s*", "", raw_title)`: strip a leading
digit run followed by a dot and any whitespace; otherwise unchanged. -/
def stripRank (s : String) : String :=
  let ds := s.data.takeWhile pyDigit
  if ds.isEmpty then s
  else
    match s.data.dropWhile pyDigit with
    | c :: rest => if c = '.' then String.mk (rest.dropWhile pySpace) else s
    | [] => s

/-- An anchor matched by the primary selector
`a.ipc-title-link-wrapper[href*="/title/tt"]`: its href attribute, the
stripped text of a nested `h3.ipc-title__text` when present, and the
stripped text of the anchor itself. -/
structure Anchor where
  href : String
  h3Text : Option String
  text : String
deriving Repr, DecidableEq

/-- The anchor found inside a legacy `h3.lister-item-header`. -/
structure HeaderAnchor where
  text : String
  href : String
deriving Repr, DecidableEq

/-- A `h3.lister-item-header` element: it may or may not contain an anchor. -/
structure ListerHeader where
  anchor : Option HeaderAnchor
deriving Repr, DecidableEq

/-- A `div.lister-item` element: it may or may not contain a header. -/
structure ListerItem where
  header : Option ListerHeader
deriving Repr, DecidableEq

/-- The parsed listing page, abstracted as the results of the two CSS
selections the script performs, in document order. -/
structure Markup where
  primaryAnchors : List Anchor
  listerItems : List ListerItem
deriving Repr, DecidableEq

/-- The raw title used on the primary path: the nested h3 text, falling
back to the anchor text when the h3 is absent. -/
def rawTitle (a : Anchor) : String :=
  match a.h3Text with
  | some t => t
  | none => a.text

/-- The primary-layout loop of fetch_popular_tv: for each matched anchor,
extract the imdb id from the href (skip if the pattern fails), take the
h3 text (or the anchor text), strip the rank, append the record, and
break once `len(items) >= count`. -/
def primaryLoop (count : Int) (acc : List RawRecord) : List Anchor → List RawRecord
  | [] => acc
  | a :: rest =>
    match ttSearch a.href.data with
    | none => primaryLoop count acc rest
    | some ds =>
      let acc2 := acc ++ [⟨stripRank (rawTitle a), "tt" ++ String.mk ds⟩]
      if count ≤ (acc2.length : Int) then acc2 else primaryLoop count acc2 rest

/-- The legacy-layout loop of fetch_popular_tv: for each lister item,
require a header and an anchor inside it, take the anchor text as title
(no rank stripping), extract the imdb id via the legacy pattern (skip on
failure), append, and break once `len(items) >= count`. -/
def legacyLoop (count : Int) (acc : List RawRecord) : List ListerItem → List RawRecord
  | [] => acc
  | item :: rest =>
    match item.header with
    | none => legacyLoop count acc rest
    | some hdr =>
      match hdr.anchor with
      | none => legacyLoop count acc rest
      | some a =>
        match legacySearch a.href.data with
        | none => legacyLoop count acc rest
        | some imdbId =>
          let acc2 := acc ++ [⟨a.text, imdbId⟩]
          if count ≤ (acc2.length : Int) then acc2 else legacyLoop count acc2 rest

/-- The extraction part of fetch_popular_tv (the HTTP fetch is modelled
separately as a FetchOutcome): run the primary loop; if it produced
nothing, run the legacy fallback loop. -/
def fetch_popular_tv (m : Markup) (count : Int) : List RawRecord :=
  let items := primaryLoop count [] m.primaryAnchors
  if items.isEmpty then legacyLoop count [] m.listerItems else items

/-- A parsed JSON value as produced by `resp.json()` (Python maps JSON
numbers without a fractional part to int, others to float; booleans stay
bool). -/
inductive JsonVal where
  | jnull
  | jbool (b : Bool)
  | jint (n : Int)
  | jfloat (q : ℚ)
  | jstr (s : String)
  | jarr (elems : List JsonVal)
  | jobj (fields : List (String × JsonVal))

/-- Python `value.get(key, dflt)`: returns the entry or the default on a
dict; `none` models the AttributeError raised on a non-dict, which the
bare `except` in imdb_to_tvdb later swallows. -/
def pyGetD (v : JsonVal) (key : String) (dflt : JsonVal) : Option JsonVal :=
  match v with
  | .jobj fields => some ((fields.lookup key).getD dflt)
  | _ => none

/-- Python `value.get(key)`: `some (some w)` when the key maps to `w`,
`some none` when the key is absent (Python returns None), `none` for the
AttributeError on a non-dict. -/
def pyGet (v : JsonVal) (key : String) : Option (Option JsonVal) :=
  match v with
  | .jobj fields => some (fields.lookup key)
  | _ => none

/-- Python `isinstance(x, int)`: true for int and for bool (bool is a
subclass of int in Python). -/
def pyIsInt : JsonVal → Bool
  | .jint _ => true
  | .jbool _ => true
  | _ => false

/-- The integer value of a Python int-like object (True == 1, False == 0);
0 as a dummy on the other constructors, which pyIsInt rules out. -/
def pyToInt : JsonVal → Int
  | .jint n => n
  | .jbool b => if b then 1 else 0
  | _ => 0

/-- The chain `data.get("externals", {}).get("thetvdb")`: `none` when
either `.get` raised (non-dict receiver), `some none` when the thetvdb
key is absent, `some (some v)` when present with value `v`. -/
def theTvdbField (data : JsonVal) : Option (Option JsonVal) :=
  match pyGetD data "externals" (.jobj []) with
  | none => none
  | some ext => pyGet ext "thetvdb"

/-- The outcome of the TVMaze lookup request: a network exception, or a
response with a status code and a parsed body (`none` body models a
JSON-decode exception from `resp.json()`). -/
inductive LookupOutcome where
  | netError
  | response (status : Nat) (body : Option JsonVal)

/-- Model of imdb_to_tvdb over the outcome of its single request: on any
exception return None; on a 200 response read
`data.get("externals", {}).get("thetvdb")` and return it only when
`isinstance(tvdb_id, int) and tvdb_id > 0` (a None field value fails the
isinstance check); otherwise return None. -/
def imdb_to_tvdb : LookupOutcome → Option Int
  | .netError => none
  | .response status body =>
    if status = 200 then
      match body with
      | none => none
      | some data =>
        match theTvdbField data with
        | none => none
        | some none => none
        | some (some tv) =>
          if pyIsInt tv = true ∧ 0 < pyToInt tv then some (pyToInt tv) else none
    else none

/-- Model of build_payload, with the resolver abstracted as a function
from imdb id to its result: for each entry in order, resolve; Python
`if tvdb_id:` keeps the entry unless the result is None or 0. -/
def build_payload (resolve : String → Option Int) : List RawRecord → List FinalEntry
  | [] => []
  | entry :: rest =>
    match resolve entry.imdbId with
    | none => build_payload resolve rest
    | some t =>
      if t = 0 then build_payload resolve rest
      else ⟨entry.title, t⟩ :: build_payload resolve rest

/-- A hexadecimal digit character, lowercase, as Python json uses in
`\uXXXX` escapes. -/
def hexDigit (n : Nat) : Char :=
  if n < 10 then Char.ofNat (48 + n) else Char.ofNat (87 + n)

/-- Four hex digits for a `\uXXXX` escape. -/
def hex4 (n : Nat) : String :=
  String.mk [hexDigit (n / 4096 % 16), hexDigit (n / 256 % 16),
             hexDigit (n / 16 % 16), hexDigit (n % 16)]

/-- One character as emitted inside a JSON string by json.dumps with
ensure_ascii=False: escape the quote, the backslash, the named control
characters, and other control characters as `\uXXXX`. -/
def jsonEscapeChar (c : Char) : String :=
  if c = '"' then "\\\""
  else if c = '\\' then "\\\\"
  else if c = '\n' then "\\n"
  else if c = '\r' then "\\r"
  else if c = '\t' then "\\t"
  else if c = '\x08' then "\\b"
  else if c = '\x0c' then "\\f"
  else if c.toNat < 32 then "\\u" ++ hex4 c.toNat
  else String.mk [c]

/-- A JSON string literal for `s`. -/
def jsonQuote (s : String) : String :=
  "\"" ++ String.join (s.data.map jsonEscapeChar) ++ "\""

/-- One payload entry as rendered by json.dumps(data, indent=2,
ensure_ascii=False) at nesting depth 1: the title key first, then the
tvdbId key. -/
def renderEntry (e : FinalEntry) : String :=
  "\x7b\n    \"title\": " ++ jsonQuote e.title ++ ",\n    \"tvdbId\": "
    ++ toString e.tvdbId ++ "\n  \x7d"

/-- json.dumps(data, indent=2, ensure_ascii=False) for the payload list:
"[]" when empty, otherwise the entries joined by ",\n  " inside
bracket lines. -/
def dumps : List FinalEntry → String
  | [] => "[]"
  | l => "[\n  " ++ String.intercalate ",\n  " (l.map renderEntry) ++ "\n]"

/-- Model of write_json over a file-system state (path to contents):
`outfile.write_text(json_text)` replaces the contents at the output path
with the rendered text plus one newline and leaves every other path
unchanged. -/
def write_json (data : List FinalEntry) (outfile : String)
    (fs : String → Option String) : String → Option String :=
  fun p => if p = outfile then some (dumps data ++ "\n") else fs p

/-- The outcome of the listing-page fetch: a transport error (connection
exception or raise_for_status on a non-2xx status), or the parsed page. -/
inductive FetchOutcome where
  | transportError
  | ok (markup : Markup)

/-- What a run of main produced: an abort via sys.exit (non-zero exit,
nothing written), or a successful write of the payload. -/
inductive MainResult where
  | aborted
  | wrote (entries : List FinalEntry)
deriving Repr, DecidableEq

/-- Model of the main pipeline: abort on fetch failure (the generic
except catches the requests exception), abort when no records were
scraped, abort when no TVDB ids resolved, otherwise write the payload. -/
def runPipeline (f : FetchOutcome) (resolve : String → Option Int)
    (count : Int) : MainResult :=
  match f with
  | .transportError => .aborted
  | .ok m =>
    let raw := fetch_popular_tv m count
    if raw.isEmpty then .aborted
    else
      let payload := build_payload resolve raw
      if payload.isEmpty then .aborted else .wrote payload

/-- The file-system state after a run of main: unchanged on an abort,
updated through write_json on success. -/
def runMainFs (f : FetchOutcome) (resolve : String → Option Int) (count : Int)
    (outfile : String) (fs : String → Option String) : String → Option String :=
  match runPipeline f resolve count with
  | .aborted => fs
  | .wrote payload => write_json payload outfile fs

/-- A string starts with a numeric prefix followed by a dot: some
nonempty run of digits, then a literal dot. -/
def startsWithRankNum (s : String) : Prop :=
  ∃ ds rest, s.data = ds ++ '.' :: rest ∧ ds ≠ [] ∧ ∀ c ∈ ds, pyDigit c = true

/-- A concrete primary-selector anchor used in concrete evaluations. -/
def demoAnchor : Anchor :=
  ⟨"/title/tt0903747/", some "1. Breaking Bad", "1. Breaking Bad"⟩

/-- A concrete markup with a single primary anchor and no legacy items. -/
def demoMarkup : Markup := ⟨[demoAnchor], []⟩

/-- A concrete legacy lister item whose anchor text has a rank-like
leading "3. ". -/
def demoLister : ListerItem :=
  ⟨some ⟨some ⟨"3. Legacy Show", "/title/tt0111161/"⟩⟩⟩

/-- Whatever imdb_to_tvdb returns, it is positive: the source guards the
returned value with `isinstance(tvdb_id, int) and tvdb_id > 0`. -/
theorem imdb_to_tvdb_pos (out : LookupOutcome) (t : Int)
    (h : imdb_to_tvdb out = some t) : 0 < t := by
  cases out with
  | netError => simp [imdb_to_tvdb] at h
  | response st body =>
    simp only [imdb_to_tvdb] at h
    split at h
    · cases body with
      | none => simp at h
      | some data =>
        cases hf : theTvdbField data with
        | none => simp [hf] at h
        | some tv =>
          cases tv with
          | none => simp [hf] at h
          | some v =>
            simp only [hf] at h
            split at h
            · rename_i hcond
              cases h
              exact hcond.2
            · simp at h
    · simp at h

/-- Every entry of build_payload comes from an input record whose
resolution returned exactly that tvdb id, with the title carried over. -/
theorem build_payload_mem (resolve : String → Option Int)
    (raw : List RawRecord) (e : FinalEntry)
    (he : e ∈ build_payload resolve raw) :
    ∃ r ∈ raw, resolve r.imdbId = some e.tvdbId ∧ e.title = r.title := by
  induction raw with
  | nil => simp [build_payload] at he
  | cons r rest ih =>
    cases hres : resolve r.imdbId with
    | none =>
      simp only [build_payload, hres] at he
      obtain ⟨r2, hr2, hres2, ht2⟩ := ih he
      exact ⟨r2, List.mem_cons_of_mem _ hr2, hres2, ht2⟩
    | some t =>
      simp only [build_payload, hres] at he
      by_cases ht : t = 0
      · rw [if_pos ht] at he
        obtain ⟨r2, hr2, hres2, ht2⟩ := ih he
        exact ⟨r2, List.mem_cons_of_mem _ hr2, hres2, ht2⟩
      · rw [if_neg ht] at he
        rcases List.mem_cons.mp he with heq | hmem
        · subst heq
          exact ⟨r, List.mem_cons_self _ _, hres, rfl⟩
        · obtain ⟨r2, hr2, hres2, ht2⟩ := ih hmem
          exact ⟨r2, List.mem_cons_of_mem _ hr2, hres2, ht2⟩

/-- Claim C1: for every list of raw records and every assignment of
resolver results drawn from the resolution-result domain (a positive
secondary id or absent), build_payload returns exactly the in-order
filterMap of the input: each record whose resolution succeeded is mapped
to a final entry with the record's title and the resolved id, records
with absent resolution are dropped, and nothing is duplicated or
reordered. -/
theorem build_payload_is_ordered_filterMap (resolve : String → Option Int)
    (hpos : ∀ id t, resolve id = some t → 0 < t) (raw : List RawRecord) :
    build_payload resolve raw
      = raw.filterMap (fun r => (resolve r.imdbId).map fun t => ⟨r.title, t⟩) := by
  induction raw with
  | nil => rfl
  | cons r rest ih =>
    cases hres : resolve r.imdbId with
    | none => simp [build_payload, hres, ih]
    | some t =>
      have hne : ¬ (t = 0) := by
        have := hpos _ _ hres
        omega
      simp [build_payload, hres, hne, ih]

/-- Witness for C1 at a concrete resolver and record list. -/
theorem build_payload_is_ordered_filterMap_witness :
    build_payload (fun _ => some 7) [⟨"A", "tt1"⟩, ⟨"B", "tt2"⟩]
      = [⟨"A", (7 : Int)⟩, ⟨"B", (7 : Int)⟩] := by
  have h := build_payload_is_ordered_filterMap (fun _ => some 7)
    (fun id t ht => by simp at ht; omega) [⟨"A", "tt1"⟩, ⟨"B", "tt2"⟩]
  rw [h]
  rfl

/-- Claim C3: the resolver returns a secondary id only when the nested
thetvdb field is present and its value is a positive integer (in the
Python sense of isinstance int); on a network exception, on a missing
field, and on a zero, negative or non-integer value it returns absent. -/
theorem imdb_to_tvdb_only_positive :
    (imdb_to_tvdb LookupOutcome.netError = none)
    ∧ (∀ st body t, imdb_to_tvdb (.response st body) = some t →
        0 < t ∧ ∃ data v, body = some data ∧ theTvdbField data = some (some v)
          ∧ pyIsInt v = true ∧ pyToInt v = t)
    ∧ (∀ st data, theTvdbField data = some none →
        imdb_to_tvdb (.response st (some data)) = none)
    ∧ (∀ st data v, theTvdbField data = some (some v) →
        pyIsInt v = false ∨ pyToInt v ≤ 0 →
        imdb_to_tvdb (.response st (some data)) = none) := by
  refine ⟨rfl, ?_, ?_, ?_⟩
  · intro st body t h
    refine ⟨imdb_to_tvdb_pos _ _ h, ?_⟩
    simp only [imdb_to_tvdb] at h
    split at h
    · cases body with
      | none => simp at h
      | some data =>
        cases hf : theTvdbField data with
        | none => simp [hf] at h
        | some tv =>
          cases tv with
          | none => simp [hf] at h
          | some v =>
            simp only [hf] at h
            split at h
            · rename_i hcond
              cases h
              exact ⟨data, v, rfl, hf, hcond.1, rfl⟩
            · simp at h
    · simp at h
  · intro st data hf
    simp only [imdb_to_tvdb]
    split
    · simp [hf]
    · rfl
  · intro st data v hf hbad
    simp only [imdb_to_tvdb]
    split
    · simp only [hf]
      rw [if_neg]
      rintro ⟨hint, hposv⟩
      rcases hbad with hb | hb
      · rw [hint] at hb
        exact absurd hb (by decide)
      · omega
    · rfl

/-- Witness for C3 at a concrete response whose thetvdb value is 0. -/
theorem imdb_to_tvdb_only_positive_witness :
    imdb_to_tvdb (.response 200
      (some (.jobj [("externals", .jobj [("thetvdb", .jint 0)])]))) = none := by
  have h := imdb_to_tvdb_only_positive.2.2.2 200
    (.jobj [("externals", .jobj [("thetvdb", .jint 0)])]) (.jint 0)
    (by rfl) (Or.inr (by decide))
  exact h

/-- Claim C7: every final entry produced by build_payload over the real
resolver has a positive tvdb id, for every assignment of lookup
outcomes. -/
theorem payload_tvdb_ids_positive (outcomes : String → LookupOutcome)
    (raw : List RawRecord) (e : FinalEntry)
    (he : e ∈ build_payload (fun id => imdb_to_tvdb (outcomes id)) raw) :
    0 < e.tvdbId := by
  obtain ⟨r, _, hres, _⟩ := build_payload_mem _ _ _ he
  exact imdb_to_tvdb_pos _ _ hres

/-- Witness for C7 at a concrete outcome assignment and record list. -/
theorem payload_tvdb_ids_positive_witness :
    (0 : Int) <
      (FinalEntry.mk "A" 42).tvdbId := by
  have he : FinalEntry.mk "A" 42 ∈ build_payload
      (fun id => imdb_to_tvdb ((fun _ => LookupOutcome.response 200
        (some (.jobj [("externals", .jobj [("thetvdb", .jint 42)])]))) id))
      [⟨"A", "tt1"⟩] := by decide
  exact payload_tvdb_ids_positive _ [⟨"A", "tt1"⟩] _ he

/-- If the accumulator is strictly below the count, the primary loop
never grows past the count: the break fires as soon as the length
reaches it. -/
theorem primaryLoop_length_le (count : Int) (l : List Anchor) :
    ∀ acc : List RawRecord, (acc.length : Int) < count →
      ((primaryLoop count acc l).length : Int) ≤ count := by
  induction l with
  | nil =>
    intro acc h
    simp only [primaryLoop]
    omega
  | cons a rest ih =>
    intro acc h
    simp only [primaryLoop]
    cases hts : ttSearch a.href.data with
    | none =>
      simp only [hts]
      exact ih acc h
    | some ds =>
      simp only [hts]
      split
      · rename_i hb
        simp only [List.length_append, List.length_singleton] at hb ⊢
        push_cast at hb ⊢
        omega
      · rename_i hb
        apply ih
        simp only [List.length_append, List.length_singleton] at hb ⊢
        push_cast at hb ⊢
        omega

/-- The same length bound for the legacy fallback loop. -/
theorem legacyLoop_length_le (count : Int) (l : List ListerItem) :
    ∀ acc : List RawRecord, (acc.length : Int) < count →
      ((legacyLoop count acc l).length : Int) ≤ count := by
  induction l with
  | nil =>
    intro acc h
    simp only [legacyLoop]
    omega
  | cons item rest ih =>
    intro acc h
    simp only [legacyLoop]
    cases hh : item.header with
    | none =>
      simp only [hh]
      exact ih acc h
    | some hdr =>
      simp only [hh]
      cases hha : hdr.anchor with
      | none =>
        simp only [hha]
        exact ih acc h
      | some a =>
        simp only [hha]
        cases hs : legacySearch a.href.data with
        | none =>
          simp only [hs]
          exact ih acc h
        | some imdbId =>
          simp only [hs]
          split
          · rename_i hb
            simp only [List.length_append, List.length_singleton] at hb ⊢
            push_cast at hb ⊢
            omega
          · rename_i hb
            apply ih
            simp only [List.length_append, List.length_singleton] at hb ⊢
            push_cast at hb ⊢
            omega

/-- Claim C2 (amended): for every requested count of at least 1 and
every markup, the extractor returns at most count records, whichever
matcher produced them.  (The claim as stated included count 0, where
the code returns one record; see the counterexample.) -/
theorem extractor_length_le (m : Markup) (count : Int) (h : 1 ≤ count) :
    ((fetch_popular_tv m count).length : Int) ≤ count := by
  simp only [fetch_popular_tv]
  split
  · exact legacyLoop_length_le count m.listerItems [] (by simp; omega)
  · exact primaryLoop_length_le count m.primaryAnchors [] (by simp; omega)

/-- Witness for the amended C2 at a concrete markup and count. -/
theorem extractor_length_le_witness :
    ((fetch_popular_tv demoMarkup 25).length : Int) ≤ 25 :=
  extractor_length_le demoMarkup 25 (by decide)

/-- Counterexample to C2 as stated: with requested count 0 and a markup
holding one matching anchor, the extractor returns one record, not at
most zero, because the break is checked only after an append. -/
theorem extractor_count_zero_counterexample :
    ¬ ((fetch_popular_tv demoMarkup 0).length ≤ 0) := by decide

/-- Claim C4: the legacy matcher is consulted exactly when the primary
matcher yields zero records; when the primary matcher yields records,
the result is the primary result and does not depend on the legacy
items at all. -/
theorem legacy_tried_iff_primary_empty (m : Markup) (count : Int) :
    (primaryLoop count [] m.primaryAnchors = [] →
       fetch_popular_tv m count = legacyLoop count [] m.listerItems)
    ∧ (primaryLoop count [] m.primaryAnchors ≠ [] →
       fetch_popular_tv m count = primaryLoop count [] m.primaryAnchors
       ∧ ∀ items2 : List ListerItem,
           fetch_popular_tv ⟨m.primaryAnchors, items2⟩ count
             = fetch_popular_tv m count) := by
  constructor
  · intro hp
    simp [fetch_popular_tv, hp]
  · intro hp
    have hne : (primaryLoop count [] m.primaryAnchors).isEmpty = false := by
      cases hpp : primaryLoop count [] m.primaryAnchors with
      | nil => exact absurd hpp hp
      | cons x xs => simp [List.isEmpty]
    constructor
    · simp [fetch_popular_tv, hne]
    · intro items2
      simp [fetch_popular_tv, hne]

/-- Witness for C4 at a concrete markup whose primary loop is nonempty. -/
theorem legacy_tried_iff_primary_empty_witness :
    fetch_popular_tv demoMarkup 25 = primaryLoop 25 [] demoMarkup.primaryAnchors ∧
      fetch_popular_tv ⟨demoMarkup.primaryAnchors, [demoLister]⟩ 25
        = fetch_popular_tv demoMarkup 25 := by
  have h := ((legacy_tried_iff_primary_empty demoMarkup 25).2 (by decide))
  exact ⟨h.1, h.2 [demoLister]⟩

/-- With a non-positive count, the primary loop stops right after its
first appended record: the cap is only checked after an append. -/
theorem primaryLoop_nonpos_count (count : Int) (hc : count ≤ 0) :
    ∀ l : List Anchor, (∃ a ∈ l, (ttSearch a.href.data).isSome) →
      (primaryLoop count [] l).length = 1 := by
  intro l
  induction l with
  | nil =>
    rintro ⟨a, ha, _⟩
    exact absurd ha (List.not_mem_nil a)
  | cons a rest ih =>
    rintro ⟨b, hb, hbs⟩
    simp only [primaryLoop]
    cases hts : ttSearch a.href.data with
    | some ds =>
      simp only [hts]
      rw [if_pos (by simp; omega)]
      simp
    | none =>
      simp only [hts]
      apply ih
      rcases List.mem_cons.mp hb with rfl | hbr
      · rw [hts] at hbs
        simp at hbs
      · exact ⟨b, hbr, hbs⟩

/-- Claim C10: when the requested count is 0 or negative and the markup
has at least one anchor the primary matcher accepts, the extractor
returns exactly one record. -/
theorem count_zero_returns_one (m : Markup) (count : Int) (hc : count ≤ 0)
    (ha : ∃ a ∈ m.primaryAnchors, (ttSearch a.href.data).isSome) :
    (fetch_popular_tv m count).length = 1 := by
  have h1 := primaryLoop_nonpos_count count hc m.primaryAnchors ha
  have hne : (primaryLoop count [] m.primaryAnchors).isEmpty = false := by
    cases hpp : primaryLoop count [] m.primaryAnchors with
    | nil => rw [hpp] at h1; simp at h1
    | cons x xs => simp [List.isEmpty]
  simp only [fetch_popular_tv, hne]
  simpa using h1

/-- Witness for C10 at a concrete markup and count 0. -/
theorem count_zero_returns_one_witness :
    (fetch_popular_tv demoMarkup 0).length = 1 :=
  count_zero_returns_one demoMarkup 0 (by decide)
    ⟨demoAnchor, by decide, by decide⟩

/-- Claim C5: stripping maps "3. Show Name" to "Show Name", and any
title that does not start with a nonempty digit run followed by a dot
is returned unchanged. -/
theorem stripRank_spec :
    stripRank "3. Show Name" = "Show Name"
    ∧ ∀ s : String, ¬ startsWithRankNum s → stripRank s = s := by
  constructor
  · decide
  · intro s hn
    cases hds : (s.data.takeWhile pyDigit).isEmpty with
    | true => simp [stripRank, hds]
    | false =>
      cases hdrop : s.data.dropWhile pyDigit with
      | nil => simp [stripRank, hds, hdrop]
      | cons c rest =>
        by_cases hc : c = '.'
        · exfalso
          apply hn
          subst hc
          refine ⟨s.data.takeWhile pyDigit, rest, ?_, ?_,
            fun c2 hc2 => List.mem_takeWhile_imp hc2⟩
          · conv_lhs => rw [← List.takeWhile_append_dropWhile pyDigit s.data]
            rw [hdrop]
          · intro h0
            rw [h0] at hds
            simp at hds
        · simp [stripRank, hds, hdrop, hc]

/-- Witness for C5 at a concrete title with no rank. -/
theorem stripRank_spec_witness :
    stripRank "Show" = "Show" := by
  have hn : ¬ startsWithRankNum "Show" := by
    rintro ⟨ds, rest, heq, hne, hdig⟩
    cases ds with
    | nil => exact hne rfl
    | cons c cs =>
      have h1 := congrArg List.head? heq
      simp at h1
      have h2 := hdig c (List.mem_cons_self c cs)
      rw [← h1] at h2
      exact absurd h2 (by decide)
  exact stripRank_spec.2 "Show" hn

/-- Every record added by the legacy loop takes its title verbatim from
the header anchor text of some input lister item. -/
theorem legacyLoop_mem (count : Int) (l : List ListerItem) :
    ∀ (acc : List RawRecord) (r : RawRecord), r ∈ legacyLoop count acc l →
      r ∈ acc ∨ ∃ item ∈ l, ∃ hdr a, item.header = some hdr
        ∧ hdr.anchor = some a ∧ r.title = a.text := by
  induction l with
  | nil =>
    intro acc r h
    left
    simpa [legacyLoop] using h
  | cons item rest ih =>
    intro acc r h
    have lift : (r ∈ acc ∨ ∃ it ∈ rest, ∃ hdr a, it.header = some hdr
        ∧ hdr.anchor = some a ∧ r.title = a.text) →
        r ∈ acc ∨ ∃ it ∈ item :: rest, ∃ hdr a, it.header = some hdr
          ∧ hdr.anchor = some a ∧ r.title = a.text := by
      rintro (hacc | ⟨it, hit, hdr, a, h1, h2, h3⟩)
      · exact Or.inl hacc
      · exact Or.inr ⟨it, List.mem_cons_of_mem _ hit, hdr, a, h1, h2, h3⟩
    cases hh : item.header with
    | none =>
      simp only [legacyLoop, hh] at h
      exact lift (ih acc r h)
    | some hdr =>
      cases hha : hdr.anchor with
      | none =>
        simp only [legacyLoop, hh, hha] at h
        exact lift (ih acc r h)
      | some a =>
        cases hs : legacySearch a.href.data with
        | none =>
          simp only [legacyLoop, hh, hha, hs] at h
          exact lift (ih acc r h)
        | some imdbId =>
          simp only [legacyLoop, hh, hha, hs] at h
          have hhead : ∀ x : RawRecord, x ∈ acc ++ [⟨a.text, imdbId⟩] →
              x ∈ acc ∨ ∃ it ∈ item :: rest, ∃ hdr2 a2, it.header = some hdr2
                ∧ hdr2.anchor = some a2 ∧ x.title = a2.text := by
            intro x hx
            rcases List.mem_append.mp hx with hxa | hxs
            · exact Or.inl hxa
            · have hx2 : x = ⟨a.text, imdbId⟩ := by simpa using hxs
              subst hx2
              exact Or.inr ⟨item, List.mem_cons_self _ _, hdr, a, hh, hha, rfl⟩
          split at h
          · exact hhead r h
          · rcases ih _ r h with hacc2 | hex
            · exact hhead r hacc2
            · exact lift (Or.inr hex)

/-- Every record added by the primary loop carries the rank-stripped
title of some matched anchor. -/
theorem primaryLoop_mem (count : Int) (l : List Anchor) :
    ∀ (acc : List RawRecord) (r : RawRecord), r ∈ primaryLoop count acc l →
      r ∈ acc ∨ ∃ a ∈ l, r.title = stripRank (rawTitle a) := by
  induction l with
  | nil =>
    intro acc r h
    left
    simpa [primaryLoop] using h
  | cons a rest ih =>
    intro acc r h
    have lift : (r ∈ acc ∨ ∃ b ∈ rest, r.title = stripRank (rawTitle b)) →
        r ∈ acc ∨ ∃ b ∈ a :: rest, r.title = stripRank (rawTitle b) := by
      rintro (hacc | ⟨b, hb, h3⟩)
      · exact Or.inl hacc
      · exact Or.inr ⟨b, List.mem_cons_of_mem _ hb, h3⟩
    cases hts : ttSearch a.href.data with
    | none =>
      simp only [primaryLoop, hts] at h
      exact lift (ih acc r h)
    | some ds =>
      simp only [primaryLoop, hts] at h
      have hhead : ∀ x : RawRecord,
          x ∈ acc ++ [⟨stripRank (rawTitle a), "tt" ++ String.mk ds⟩] →
          x ∈ acc ∨ ∃ b ∈ a :: rest, x.title = stripRank (rawTitle b) := by
        intro x hx
        rcases List.mem_append.mp hx with hxa | hxs
        · exact Or.inl hxa
        · have hx2 : x = ⟨stripRank (rawTitle a), "tt" ++ String.mk ds⟩ := by
            simpa using hxs
          subst hx2
          exact Or.inr ⟨a, List.mem_cons_self _ _, rfl⟩
      split at h
      · exact hhead r h
      · rcases ih _ r h with hacc2 | hex
        · exact hhead r hacc2
        · exact lift (Or.inr hex)

/-- Claim C9: records produced by the legacy fallback keep the header
anchor text verbatim as title, while records produced by the primary
path carry the rank-stripped title; stripping happens only on the
primary path. -/
theorem legacy_titles_kept_verbatim (count : Int) (l : List ListerItem)
    (anchors : List Anchor) :
    (∀ r ∈ legacyLoop count [] l, ∃ item ∈ l, ∃ hdr a,
        item.header = some hdr ∧ hdr.anchor = some a ∧ r.title = a.text)
    ∧ (∀ r ∈ primaryLoop count [] anchors, ∃ a ∈ anchors,
        r.title = stripRank (rawTitle a)) := by
  constructor
  · intro r hr
    rcases legacyLoop_mem count l [] r hr with h | h
    · exact absurd h (List.not_mem_nil r)
    · exact h
  · intro r hr
    rcases primaryLoop_mem count anchors [] r hr with h | h
    · exact absurd h (List.not_mem_nil r)
    · exact h

/-- Witness for C9: a legacy item whose anchor text begins "3. " keeps
that text as its title. -/
theorem legacy_titles_kept_verbatim_witness :
    ∃ item ∈ [demoLister], ∃ hdr a, item.header = some hdr
      ∧ hdr.anchor = some a
      ∧ (RawRecord.mk "3. Legacy Show" "tt0111161").title = a.text := by
  have h := (legacy_titles_kept_verbatim 25 [demoLister] []).1
    ⟨"3. Legacy Show", "tt0111161"⟩ (by decide)
  exact h

/-- Claim C6: main writes only when the fetch succeeded, extraction was
nonempty and resolution was nonempty; a transport error, an empty
extraction, or an all-failed resolution each abort, and an aborted run
leaves the file system untouched. -/
theorem fatal_faults_abort (f : FetchOutcome) (resolve : String → Option Int)
    (count : Int) (outfile : String) (fs : String → Option String) :
    (∀ p, runPipeline f resolve count = .wrote p →
       ∃ m, f = .ok m ∧ fetch_popular_tv m count ≠ []
         ∧ p = build_payload resolve (fetch_popular_tv m count) ∧ p ≠ [])
    ∧ (runPipeline f resolve count = .aborted →
       runMainFs f resolve count outfile fs = fs)
    ∧ (f = .transportError → runPipeline f resolve count = .aborted)
    ∧ (∀ m, f = .ok m → fetch_popular_tv m count = [] →
       runPipeline f resolve count = .aborted)
    ∧ (∀ m, f = .ok m → build_payload resolve (fetch_popular_tv m count) = [] →
       runPipeline f resolve count = .aborted) := by
  refine ⟨?_, ?_, ?_, ?_, ?_⟩
  · intro p h
    cases f with
    | transportError => simp [runPipeline] at h
    | ok m =>
      refine ⟨m, rfl, ?_⟩
      cases hraw : fetch_popular_tv m count with
      | nil => simp [runPipeline, hraw] at h
      | cons x xs =>
        simp only [runPipeline, hraw, List.isEmpty_cons, if_false] at h
        cases hpay : build_payload resolve (x :: xs) with
        | nil => simp [hpay] at h
        | cons y ys =>
          simp only [hpay, List.isEmpty_cons, if_false] at h
          cases h
          exact ⟨by simp, rfl, by simp⟩
  · intro h
    simp [runMainFs, h]
  · intro h
    subst h
    rfl
  · intro m hf hraw
    subst hf
    simp [runPipeline, hraw]
  · intro m hf hpay
    subst hf
    cases hraw : fetch_popular_tv m count with
    | nil => simp [runPipeline, hraw]
    | cons x xs =>
      rw [hraw] at hpay
      simp [runPipeline, hraw, hpay]

/-- Witness for C6: a transport error aborts the run. -/
theorem fatal_faults_abort_witness :
    runPipeline FetchOutcome.transportError (fun _ => none) 25
      = MainResult.aborted :=
  (fatal_faults_abort FetchOutcome.transportError (fun _ => none) 25
    "top_25.json" (fun _ => none)).2.2.1 rfl

/-- Claim C8: write_json stores the rendered text plus exactly one
trailing newline at the output path, overwriting whatever was there and
touching no other path; each rendered entry places the title field
before the tvdbId field, and the rendered text itself ends with a
bracket, not a newline. -/
theorem serializer_spec (data : List FinalEntry) (outfile : String)
    (fs : String → Option String) :
    (write_json data outfile fs outfile = some (dumps data ++ "\n"))
    ∧ (∀ p, p ≠ outfile → write_json data outfile fs p = fs p)
    ∧ (∀ e : FinalEntry, ∃ s t, renderEntry e =
        "\x7b\n    \"title\": " ++ s ++ ",\n    \"tvdbId\": " ++ t ++ "\n  \x7d")
    ∧ (∃ s, dumps data = s ++ "]") := by
  refine ⟨by simp [write_json], ?_, ?_, ?_⟩
  · intro p hp
    simp [write_json, hp]
  · intro e
    exact ⟨jsonQuote e.title, toString e.tvdbId, rfl⟩
  · cases data with
    | nil => exact ⟨"[", rfl⟩
    | cons e rest =>
      refine ⟨"[\n  " ++ String.intercalate ",\n  "
        ((e :: rest).map renderEntry) ++ "\n", ?_⟩
      have hd : dumps (e :: rest)
          = "[\n  " ++ String.intercalate ",\n  "
              ((e :: rest).map renderEntry) ++ "\n]" := rfl
      have h1 : ("\n]" : String) = "\n" ++ "]" := rfl
      rw [hd, h1, ← String.append_assoc]

/-- Witness for C8: writing leaves an unrelated path unchanged. -/
theorem serializer_spec_witness :
    write_json [] "top_25.json" (fun _ => some "old") "other" = some "old" :=
  (serializer_spec [] "top_25.json" (fun _ => some "old")).2.1 "other" (by decide)
